import Mathlib

set_option maxHeartbeats 1000000
set_option maxRecDepth 4000

/-!
Verification development for the authflow repository: a two-service
authentication architecture consisting of an auth service (session issuance)
and a session service (device-fingerprint verification gateway).

The Python sources are shallowly embedded as executable Lean definitions:
* SHA-256 (hashlib.sha256(...).hexdigest()) is implemented from FIPS 180-4
  over byte lists, with UTF-8 encoding of strings;
* json.dumps / json.loads (as used by the Redis store client) are implemented
  for the object/string/integer fragment actually exchanged by the services
  (`ensure_ascii` rendering with Python's default separators);
* the Redis store is modelled as an association list from keys to
  (serialized value, absolute expiry time), with read/write/delete commands;
* the middleware, extraction helpers, fingerprint generator and session
  controller are translated function by function from the Python sources.
-/

namespace AuthFlow

/-! ## SHA-256 (model of Python's `hashlib.sha256`), FIPS 180-4 -/

namespace SHA256

/-- Truncate to a 32-bit word. -/
def w32 (x : Nat) : Nat := x % 4294967296

/-- Right rotation of a 32-bit word. -/
def rotr (n x : Nat) : Nat := w32 ((x >>> n) ||| (x <<< (32 - n)))

def ch (x y z : Nat) : Nat := (x &&& y) ^^^ ((x ^^^ 4294967295) &&& z)

def maj (x y z : Nat) : Nat := (x &&& y) ^^^ (x &&& z) ^^^ (y &&& z)

def bsig0 (x : Nat) : Nat := (rotr 2 x) ^^^ (rotr 13 x) ^^^ (rotr 22 x)

def bsig1 (x : Nat) : Nat := (rotr 6 x) ^^^ (rotr 11 x) ^^^ (rotr 25 x)

def ssig0 (x : Nat) : Nat := (rotr 7 x) ^^^ (rotr 18 x) ^^^ (x >>> 3)

def ssig1 (x : Nat) : Nat := (rotr 17 x) ^^^ (rotr 19 x) ^^^ (x >>> 10)

/-- The 64 round constants. -/
def K : List Nat :=
  [1116352408, 1899447441, 3049323471, 3921009573, 961987163,
   1508970993, 2453635748, 2870763221, 3624381080, 310598401,
   607225278, 1426881987, 1925078388, 2162078206, 2614888103,
   3248222580, 3835390401, 4022224774, 264347078, 604807628,
   770255983, 1249150122, 1555081692, 1996064986, 2554220882,
   2821834349, 2952996808, 3210313671, 3336571891, 3584528711,
   113926993, 338241895, 666307205, 773529912, 1294757372,
   1396182291, 1695183700, 1986661051, 2177026350, 2456956037,
   2730485921, 2820302411, 3259730800, 3345764771, 3516065817,
   3600352804, 4094571909, 275423344, 430227734, 506948616,
   659060556, 883997877, 958139571, 1322822218, 1537002063,
   1747873779, 1955562222, 2024104815, 2227730452, 2361852424,
   2428436474, 2756734187, 3204031479, 3329325298]

/-- Initial hash value. -/
def H0 : List Nat :=
  [1779033703, 3144134277, 1013904242, 2773480762,
   1359893119, 2600822924, 528734635, 1541459225]

/-- Big-endian byte decomposition: `bytesBE n v` is the `n`-byte big-endian
encoding of `v mod 256^n`. -/
def bytesBE : Nat → Nat → List Nat
  | 0, _ => []
  | n + 1, v => bytesBE n (v / 256) ++ [v % 256]

/-- SHA-256 padding: append `0x80`, zero bytes up to 56 mod 64, then the
64-bit big-endian bit length. -/
def pad (msg : List Nat) : List Nat :=
  let L := msg.length
  let k := (119 - (L % 64)) % 64
  msg ++ [0x80] ++ List.replicate k 0 ++ bytesBE 8 (8 * L)

/-- Split a byte list (whose length is a multiple of 64) into 64-byte blocks;
`fuel` bounds the number of blocks. -/
def toBlocksAux : Nat → List Nat → List (List Nat)
  | 0, _ => []
  | fuel + 1, l => if l = [] then [] else (l.take 64) :: toBlocksAux fuel (l.drop 64)

/-- Split a byte list (whose length is a multiple of 64) into 64-byte blocks. -/
def toBlocks (l : List Nat) : List (List Nat) := toBlocksAux l.length l

/-- Pack bytes into big-endian 32-bit words. -/
def toWords : List Nat → List Nat
  | a :: b :: c :: d :: rest => (((a * 256 + b) * 256 + c) * 256 + d) :: toWords rest
  | _ => []

/-- One extension step appending the next schedule word. -/
def schedStep (w : List Nat) : List Nat :=
  w ++ [w32 (ssig1 (w.getD (w.length - 2) 0) + w.getD (w.length - 7) 0 +
             ssig0 (w.getD (w.length - 15) 0) + w.getD (w.length - 16) 0)]

/-- Iterate the schedule extension `n` times. -/
def schedAux : Nat → List Nat → List Nat
  | 0, w => w
  | n + 1, w => schedAux n (schedStep w)

/-- Extend a 16-word message block to the 64-word schedule. -/
def sched (w : List Nat) : List Nat := schedAux (64 - w.length) w

/-- One compression round on the state `[a,b,c,d,e,f,g,h]`. -/
def roundFn (s : List Nat) (kw : Nat × Nat) : List Nat :=
  match s with
  | [a, b, c, d, e, f, g, h] =>
    let t1 := w32 (h + bsig1 e + ch e f g + kw.1 + kw.2)
    let t2 := w32 (bsig0 a + maj a b c)
    [w32 (t1 + t2), a, b, c, w32 (d + t1), e, f, g]
  | _ => s

/-- Compress one 64-byte block into the running hash state. -/
def compress (h : List Nat) (block : List Nat) : List Nat :=
  let ws := sched (toWords block)
  let final := (K.zip ws).foldl roundFn h
  (h.zip final).map (fun p => w32 (p.1 + p.2))

/-- SHA-256 digest (32 bytes) of a byte-list message. -/
def sha256 (msg : List Nat) : List Nat :=
  (((toBlocks (pad msg)).foldl compress H0).map (bytesBE 4)).flatten

/-- Lowercase hex character for a nibble value. -/
def hexChar (n : Nat) : Char := if n < 10 then Char.ofNat (48 + n) else Char.ofNat (87 + n)

/-- Two lowercase hex characters for one byte. -/
def byteHex (b : Nat) : List Char := [hexChar (b / 16), hexChar (b % 16)]

/-- Lowercase hex digest string of a byte list, as Python's `hexdigest()`. -/
def hexdigest (bytes : List Nat) : String := ⟨(bytes.map byteHex).flatten⟩

end SHA256

/-- UTF-8 encoding of one Unicode scalar value, as a list of bytes. -/
def utf8Char (c : Char) : List Nat :=
  let n := c.toNat
  if n < 0x80 then [n]
  else if n < 0x800 then [0xC0 ||| (n >>> 6), 0x80 ||| (n &&& 0x3F)]
  else if n < 0x10000 then
    [0xE0 ||| (n >>> 12), 0x80 ||| ((n >>> 6) &&& 0x3F), 0x80 ||| (n &&& 0x3F)]
  else
    [0xF0 ||| (n >>> 18), 0x80 ||| ((n >>> 12) &&& 0x3F),
     0x80 ||| ((n >>> 6) &&& 0x3F), 0x80 ||| (n &&& 0x3F)]

/-- UTF-8 encoding of a string (model of Python's `str.encode("utf-8")`). -/
def utf8Encode (s : String) : List Nat := (s.data.map utf8Char).flatten

/-- `hashlib.sha256(s.encode("utf-8")).hexdigest()`. -/
def sha256Hex (s : String) : String := SHA256.hexdigest (SHA256.sha256 (utf8Encode s))

/-! ## JSON (model of Python's `json.dumps` / `json.loads`)

The services exchange only flat JSON objects whose members are strings and
integers (the serialized session record `{"fingerprint": ..., "user_id": ...}`),
or bare strings/integers when the store holds other well-formed JSON.  The
model covers exactly this fragment: rendering follows `json.dumps` defaults
(`ensure_ascii=True`, separators `", "` and `": "`); parsing follows the
strict-mode decoder (unescaped control characters rejected, `\uXXXX` escapes
with surrogate-pair recombination).  Lone surrogates, floats, arrays and
booleans are outside the modelled fragment. -/

/-- A JSON primitive member value: string or integer. -/
inductive JPrim where
  | pstr (s : String)
  | pint (n : Int)
deriving DecidableEq, Repr

/-- A JSON value of the fragment the services exchange: a string, an integer,
or a flat object with primitive members. -/
inductive JValue where
  | jstr (s : String)
  | jint (n : Int)
  | jobj (fields : List (String × JPrim))
deriving DecidableEq, Repr

/-- Four lowercase hex characters for a value below 0x10000 (`\uXXXX`). -/
def hex4 (n : Nat) : List Char :=
  [SHA256.hexChar (n / 4096 % 16), SHA256.hexChar (n / 256 % 16),
   SHA256.hexChar (n / 16 % 16), SHA256.hexChar (n % 16)]

/-- `json.dumps` escaping of one character under `ensure_ascii=True`:
`"` and `\` are backslash-escaped, the named control escapes are used,
other control and all non-ASCII characters become `\uXXXX` (with a
surrogate pair above the BMP), printable ASCII is copied verbatim. -/
def escapeChar (c : Char) : List Char :=
  if c = '"' then ['\\', '"']
  else if c = '\\' then ['\\', '\\']
  else if c.toNat = 10 then ['\\', 'n']
  else if c.toNat = 13 then ['\\', 'r']
  else if c.toNat = 9 then ['\\', 't']
  else if c.toNat = 8 then ['\\', 'b']
  else if c.toNat = 12 then ['\\', 'f']
  else if 32 ≤ c.toNat ∧ c.toNat ≤ 126 then [c]
  else if c.toNat < 0x10000 then '\\' :: 'u' :: hex4 c.toNat
  else
    ('\\' :: 'u' :: hex4 (0xD800 + (c.toNat - 0x10000) / 1024)) ++
    ('\\' :: 'u' :: hex4 (0xDC00 + (c.toNat - 0x10000) % 1024))

/-- Rendered JSON string literal: quote, escaped characters, quote. -/
def renderString (s : String) : List Char :=
  '"' :: (s.data.map escapeChar).flatten ++ ['"']

/-- Little-endian decimal digits of `n` (empty for 0); `fuel ≥ n` suffices. -/
def natDigitsLE : Nat → Nat → List Nat
  | 0, _ => []
  | fuel + 1, n => if n = 0 then [] else (n % 10) :: natDigitsLE fuel (n / 10)

/-- Decimal rendering of a natural number. -/
def renderNat (n : Nat) : List Char :=
  if n = 0 then ['0']
  else ((natDigitsLE n n).reverse.map (fun d => Char.ofNat (48 + d)))

/-- Decimal rendering of an integer (Python `repr` of an `int`). -/
def renderInt (n : Int) : List Char :=
  if n < 0 then '-' :: renderNat n.natAbs else renderNat n.natAbs

/-- Rendered member value. -/
def renderPrim : JPrim → List Char
  | .pstr s => renderString s
  | .pint n => renderInt n

/-- Rendered object members with `json.dumps` default separators
(`", "` between items, `": "` after each key). -/
def renderFields : List (String × JPrim) → List Char
  | [] => []
  | [(k, v)] => renderString k ++ ':' :: ' ' :: renderPrim v
  | (k, v) :: rest => renderString k ++ ':' :: ' ' :: renderPrim v ++ ',' :: ' ' :: renderFields rest

/-- Rendered JSON value. -/
def renderValue : JValue → List Char
  | .jstr s => renderString s
  | .jint n => renderInt n
  | .jobj [] => ['{', '}']
  | .jobj fs => '{' :: renderFields fs ++ ['}']

/-- `json.dumps` on the modelled fragment. -/
def dumps (v : JValue) : String := ⟨renderValue v⟩

/-- Hex digit value of a character, if it is one. -/
def hexVal (c : Char) : Option Nat :=
  let n := c.toNat
  if 48 ≤ n && n ≤ 57 then some (n - 48)
  else if 97 ≤ n && n ≤ 102 then some (n - 87)
  else if 65 ≤ n && n ≤ 70 then some (n - 55)
  else none

/-- Parse exactly four hex digits. -/
def parseHex4 : List Char → Option (Nat × List Char)
  | a :: b :: c :: d :: rest =>
    match hexVal a, hexVal b, hexVal c, hexVal d with
    | some x, some y, some z, some w => some (((x * 16 + y) * 16 + z) * 16 + w, rest)
    | _, _, _, _ => none
  | _ => none

/-- Strict-mode JSON string scanner (model of `json.decoder.py_scanstring`):
reads characters after an opening quote up to the closing quote, resolving
backslash escapes, recombining `\uXXXX` surrogate pairs, and rejecting
unescaped control characters and lone surrogates. -/
def parseStrBody : Nat → List Char → Option (List Char × List Char)
  | 0, _ => none
  | fuel + 1, cs =>
    match cs with
    | [] => none
    | c :: rest =>
      if c = '"' then some ([], rest)
      else if c = '\\' then
        match rest with
        | [] => none
        | e :: t =>
          if e = '"' then (parseStrBody fuel t).map (fun p => ('"' :: p.1, p.2))
          else if e = '\\' then (parseStrBody fuel t).map (fun p => ('\\' :: p.1, p.2))
          else if e = '/' then (parseStrBody fuel t).map (fun p => ('/' :: p.1, p.2))
          else if e = 'b' then (parseStrBody fuel t).map (fun p => (Char.ofNat 8 :: p.1, p.2))
          else if e = 'f' then (parseStrBody fuel t).map (fun p => (Char.ofNat 12 :: p.1, p.2))
          else if e = 'n' then (parseStrBody fuel t).map (fun p => ('\n' :: p.1, p.2))
          else if e = 'r' then (parseStrBody fuel t).map (fun p => (Char.ofNat 13 :: p.1, p.2))
          else if e = 't' then (parseStrBody fuel t).map (fun p => ('\t' :: p.1, p.2))
          else if e = 'u' then
            match parseHex4 t with
            | none => none
            | some (n1, t1) =>
              if 0xD800 ≤ n1 ∧ n1 ≤ 0xDBFF then
                match t1 with
                | '\\' :: 'u' :: t2 =>
                  match parseHex4 t2 with
                  | none => none
                  | some (n2, t3) =>
                    if 0xDC00 ≤ n2 ∧ n2 ≤ 0xDFFF then
                      (parseStrBody fuel t3).map (fun p =>
                        (Char.ofNat (0x10000 + (n1 - 0xD800) * 1024 + (n2 - 0xDC00)) :: p.1, p.2))
                    else none
                | _ => none
              else if 0xDC00 ≤ n1 ∧ n1 ≤ 0xDFFF then none
              else (parseStrBody fuel t1).map (fun p => (Char.ofNat n1 :: p.1, p.2))
          else none
      else if c.toNat < 32 then none
      else (parseStrBody fuel rest).map (fun p => (c :: p.1, p.2))

/-- Decimal digit predicate. -/
def isDigitCh (c : Char) : Bool := 48 ≤ c.toNat && c.toNat ≤ 57

/-- Fold a run of decimal digit characters into a value. -/
def digitsToNat (acc : Nat) : List Char → Nat
  | [] => acc
  | c :: cs => digitsToNat (acc * 10 + (c.toNat - 48)) cs

/-- Parse a maximal nonempty run of decimal digits. -/
def parseNatTok (cs : List Char) : Option (Nat × List Char) :=
  let ds := cs.takeWhile isDigitCh
  if ds = [] then none else some (digitsToNat 0 ds, cs.dropWhile isDigitCh)

/-- Parse a JSON integer (optional leading minus sign). -/
def parseIntTok : List Char → Option (Int × List Char)
  | [] => none
  | c :: r =>
    if c = '-' then (parseNatTok r).map (fun p => (-(p.1 : Int), p.2))
    else (parseNatTok (c :: r)).map (fun p => ((p.1 : Int), p.2))

/-- JSON whitespace predicate. -/
def isWsChar (c : Char) : Bool :=
  c == ' ' || c == '\t' || c == '\n' || c == '\x0d'

/-- JSON whitespace skipping. -/
def skipWs (cs : List Char) : List Char :=
  cs.dropWhile isWsChar

/-- Parse one primitive member value (string or integer). -/
def parsePrim (cs : List Char) : Option (JPrim × List Char) :=
  match skipWs cs with
  | [] => none
  | c :: r =>
    if c = '"' then (parseStrBody (r.length + 1) r).map (fun p => (JPrim.pstr ⟨p.1⟩, p.2))
    else (parseIntTok (c :: r)).map (fun p => (JPrim.pint p.1, p.2))

/-- Parse a nonempty member list terminated by `}` (the `}` is consumed). -/
def parseFields : Nat → List Char → Option (List (String × JPrim) × List Char)
  | 0, _ => none
  | fuel + 1, cs =>
    match skipWs cs with
    | '"' :: r =>
      match parseStrBody (r.length + 1) r with
      | none => none
      | some (k, r1) =>
        match skipWs r1 with
        | ':' :: r2 =>
          match parsePrim r2 with
          | none => none
          | some (v, r3) =>
            match skipWs r3 with
            | ',' :: r4 => (parseFields fuel r4).map (fun p => ((⟨k⟩, v) :: p.1, p.2))
            | '}' :: r4 => some ([(⟨k⟩, v)], r4)
            | _ => none
        | _ => none
    | _ => none

/-- Parse one JSON value of the modelled fragment. -/
def parseValueTop (cs : List Char) : Option (JValue × List Char) :=
  match skipWs cs with
  | [] => none
  | c :: r =>
    if c = '"' then (parseStrBody (r.length + 1) r).map (fun p => (JValue.jstr ⟨p.1⟩, p.2))
    else if c = '{' then
      match skipWs r with
      | '}' :: r2 => some (JValue.jobj [], r2)
      | _ => (parseFields (r.length + 1) r).map (fun p => (JValue.jobj p.1, p.2))
    else (parseIntTok (c :: r)).map (fun p => (JValue.jint p.1, p.2))

/-- `json.loads` on the modelled fragment: one value, surrounded only by
whitespace. -/
def loads (s : String) : Option JValue :=
  match parseValueTop s.data with
  | some (v, rest) => if skipWs rest = [] then some v else none
  | none => none

/-! ## Redis store model

The external store is an association list from keys to a serialized value
(the JSON text; Redis holds its UTF-8 bytes) and an absolute expiry instant.
A key is visible while `now < expiresAt`.  Store operations are issued as
commands so that which operations each code path performs is itself a proved
fact: `GET` leaves the store unchanged, `SET k v ex` overwrites with a fresh
expiry window, `DEL` removes. -/

instance {α β : Type} [DecidableEq α] [DecidableEq β] : DecidableEq (Except α β) :=
  fun a b =>
    match a, b with
    | .error x, .error y =>
      if h : x = y then isTrue (by rw [h])
      else isFalse (by intro hh; cases hh; exact h rfl)
    | .error _, .ok _ => isFalse (by intro hh; cases hh)
    | .ok _, .error _ => isFalse (by intro hh; cases hh)
    | .ok x, .ok y =>
      if h : x = y then isTrue (by rw [h])
      else isFalse (by intro hh; cases hh; exact h rfl)

structure StoreEntry where
  value : String
  expiresAt : Nat
deriving DecidableEq, Repr

/-- The store contents: newest binding for a key shadows older ones. -/
def Store := List (String × StoreEntry)

instance : DecidableEq Store := by
  unfold Store
  infer_instance

/-- Raw lookup of the current entry for a key, ignoring expiry. -/
def storeLookup (st : Store) (k : String) : Option StoreEntry :=
  match st with
  | [] => none
  | (k2, e) :: rest => if k2 = k then some e else storeLookup rest k

/-- Visible value of a key at time `now` (absent and expired are uniform). -/
def storeGet (st : Store) (now : Nat) (k : String) : Option String :=
  match storeLookup st k with
  | some e => if now < e.expiresAt then some e.value else none
  | none => none

/-- A Redis command issued by the embedded code. -/
inductive RedisCmd where
  | getCmd (k : String)
  | setCmd (k : String) (v : String) (ex : Nat)
  | delCmd (k : String)
deriving DecidableEq, Repr

/-- Semantics of one command on the store at time `now`: `GET` is
non-mutating, `SET` rebinds the key with expiry `now + ex`, `DEL` removes. -/
def applyCmd (st : Store) (now : Nat) : RedisCmd → Store
  | .getCmd _ => st
  | .setCmd k v ex => (k, ⟨v, now + ex⟩) :: (st.filter (fun p => !(p.1 == k)))
  | .delCmd k => st.filter (fun p => !(p.1 == k))

/-- Apply a command sequence issued within one instant. -/
def applyCmds (st : Store) (now : Nat) : List RedisCmd → Store
  | [] => st
  | c :: cs => applyCmds (applyCmd st now c) now cs

/-! ## Requests -/

/-- The transport-level peer (`request.client`), which Starlette may omit. -/
structure PyClient where
  host : String
deriving DecidableEq, Repr

/-- The request attributes the two services consume. -/
structure PyRequest where
  path : String
  cookies : List (String × String)
  headers : List (String × String)
  client : Option PyClient
deriving DecidableEq, Repr

/-- `dict.get` on an association list (first binding wins). -/
def assocGet (l : List (String × String)) (k : String) : Option String :=
  match l with
  | [] => none
  | (k2, v) :: rest => if k2 = k then some v else assocGet rest k

/-- `request.headers.get(name)`. -/
def headerGet (req : PyRequest) (name : String) : Option String :=
  assocGet req.headers name

/-- `request.cookies.get(name)`. -/
def cookieGet (req : PyRequest) (name : String) : Option String :=
  assocGet req.cookies name

/-- The device-info dict passed to the fingerprint generator.  Fields are
optional because a Python dict may lack any of the keys; the extractors
always populate all three. -/
structure DeviceInfo where
  user_agent : Option String
  accept_language : Option String
  x_forwarded_for : Option String
deriving DecidableEq, Repr

namespace SessionService

/-- `session-service/utils/extract_info.py::extract_info`: user agent
defaults to `"Unknown"`, accept-language to `""`; the client address is the
`X-Forwarded-For` header when it is present (`is None` check — the empty
string is kept as-is), else the peer host, else `"Unknown"`.  The function's
internal `try` body cannot raise, and the two `is None` re-checks after
`.get` with a default are dead code. -/
def extract_info (req : PyRequest) : DeviceInfo :=
  let user_agent := (headerGet req "User-Agent").getD "Unknown"
  let accept_language := (headerGet req "Accept-Language").getD ""
  let x_forwarded_for :=
    match headerGet req "X-Forwarded-For" with
    | some v => v
    | none => match req.client with
              | some c => c.host
              | none => "Unknown"
  { user_agent := some user_agent,
    accept_language := some accept_language,
    x_forwarded_for := some x_forwarded_for }

/-- `session-service/service/security/core/fingerprint.py::generate_fingerprint`:
`info.get` with defaults `"Unknown"`, `"Unknown"`, `""`, then the SHA-256 hex
digest of the UTF-8 encoding of `f"{ip}|{user_agent}|{accept_language}"`. -/
def generate_fingerprint (info : DeviceInfo) : String :=
  let ip := info.x_forwarded_for.getD "Unknown"
  let user_agent := info.user_agent.getD "Unknown"
  let accept_language := info.accept_language.getD ""
  sha256Hex (ip ++ "|" ++ user_agent ++ "|" ++ accept_language)

/-- `InitRedis.set_session`: serialize the dict with `json.dumps`, store
under the session id with `ex=60`.  Returns the issued Redis commands. -/
def set_session (session_id : String) (session_data : List (String × JPrim)) :
    List RedisCmd :=
  [RedisCmd.setCmd session_id (dumps (.jobj session_data)) 60]

/-- `UpdateSession.update_session`: delegates to `set_session`. -/
def update_session (session_id : String) (session_data : List (String × JPrim)) :
    List RedisCmd :=
  set_session session_id session_data

/-- `SaveSession.save_session`: delegates to `set_session`; its `except`
clause re-raises, so the behavior is that of `set_session`. -/
def save_session (session_id : String) (session_data : List (String × JPrim)) :
    List RedisCmd :=
  set_session session_id session_data

/-- `DeleteSession.delete_session` via `InitRedis.delete_session`. -/
def delete_session (session_id : String) : List RedisCmd :=
  [RedisCmd.delCmd session_id]

/-- The reply computed by `InitRedis.get_session`: when the connection is
down the call raises (`.error`); an empty or absent reply is falsy
(`if byted_data:`) and yields the sentinel string `"Does Not Exist!"`
(`self.message.get("response")`); otherwise the reply is
`json.loads`-decoded, raising on malformed data. -/
def get_sessionRes (st : Store) (now : Nat) (redisUp : Bool) (session_id : String) :
    Except String JValue :=
  if !redisUp then .error "ConnectionError"
  else
    match storeGet st now session_id with
    | some byted_data =>
      if byted_data ≠ "" then
        match loads byted_data with
        | some v => .ok v
        | none => .error "JSONDecodeError"
      else .ok (.jstr "Does Not Exist!")
    | none => .ok (.jstr "Does Not Exist!")

/-- `InitRedis.get_session`: one `GET` round trip and its decoded reply. -/
def get_session (st : Store) (now : Nat) (redisUp : Bool) (session_id : String) :
    Except String JValue × List RedisCmd :=
  (get_sessionRes st now redisUp session_id, [RedisCmd.getCmd session_id])

/-- `FetchSession.fetch_session`: passthrough to `get_session`. -/
def fetch_session (st : Store) (now : Nat) (redisUp : Bool) (session_id : String) :
    Except String JValue × List RedisCmd :=
  get_session st now redisUp session_id

/-- Lookup of a member in a decoded session dict (`dict.get`). -/
def jget (fields : List (String × JPrim)) (k : String) : Option JPrim :=
  match fields with
  | [] => none
  | (k2, v) :: rest => if k2 = k then some v else jget rest k

/-- The observable result of the middleware for one request. -/
inductive Response where
  | redirect (url : String) (status : Nat)
  | downstream (path : String)
deriving DecidableEq, Repr

/-- High-level steps the middleware performs, in execution order. -/
inductive Ev where
  | extractInfo
  | computeFingerprint
  | storeLookup
  | callNext
deriving DecidableEq, Repr

/-- Configuration and environment of one gateway invocation. -/
structure Env where
  excluded_paths : List String
  auth_url : String
  store : Store
  now : Nat
  redisUp : Bool
  callNextOk : Bool
deriving DecidableEq

/-- Outcome of a gateway invocation: the response, the step trace, and the
Redis commands issued. -/
structure DispatchResult where
  response : Response
  trace : List Ev
  cmds : List RedisCmd
deriving DecidableEq

/-- Body of `VerifyDeviceInfoMiddleware.dispatch` (the `try` block): exempt
paths forward immediately; a missing cookie redirects; otherwise device info
and the fingerprint are computed, then the session record is fetched, and a
string-typed or fingerprint-mismatched record redirects while a match
forwards.  A raised exception is returned as `.error`. -/
def dispatchBody (env : Env) (req : PyRequest) :
    Except String Response × List Ev × List RedisCmd :=
  if req.path ∈ env.excluded_paths then
    (if env.callNextOk then (.ok (.downstream req.path), [Ev.callNext], [])
     else (.error "downstream exception", [Ev.callNext], []))
  else
    match cookieGet req "session_id" with
    | none => (.ok (.redirect env.auth_url 302), [], [])
    | some session_id =>
      let info := extract_info req
      let fingerprint := generate_fingerprint info
      let pre := [Ev.extractInfo, Ev.computeFingerprint, Ev.storeLookup]
      let fetched := fetch_session env.store env.now env.redisUp session_id
      match fetched.1 with
      | .error e => (.error e, pre, fetched.2)
      | .ok session_data =>
        match session_data with
        | .jstr _ => (.ok (.redirect env.auth_url 302), pre, fetched.2)
        | .jint _ => (.error "AttributeError", pre, fetched.2)
        | .jobj fields =>
          if jget fields "fingerprint" ≠ some (.pstr fingerprint) then
            (.ok (.redirect env.auth_url 302), pre, fetched.2)
          else if env.callNextOk then
            (.ok (.downstream req.path), pre ++ [Ev.callNext], fetched.2)
          else (.error "downstream exception", pre ++ [Ev.callNext], fetched.2)

/-- `VerifyDeviceInfoMiddleware.dispatch`: the `try` body with the blanket
`except` that converts every raised exception into the auth redirect. -/
def dispatch (env : Env) (req : PyRequest) : DispatchResult :=
  match dispatchBody env req with
  | (.ok r, tr, cmds) => ⟨r, tr, cmds⟩
  | (.error _, tr, cmds) => ⟨.redirect env.auth_url 302, tr, cmds⟩

/-- Spec-side characterization of a positively verified request: a session
cookie is present, the store fetch returns a structured record (not the
sentinel, not any string, not otherwise unstructured data), and the record's
stored fingerprint equals the fingerprint recomputed from this request. -/
def verified (env : Env) (req : PyRequest) : Bool :=
  match cookieGet req "session_id" with
  | none => false
  | some session_id =>
    match (fetch_session env.store env.now env.redisUp session_id).1 with
    | .ok (.jobj fields) =>
      decide (jget fields "fingerprint"
        = some (.pstr (generate_fingerprint (extract_info req))))
    | _ => false

end SessionService

namespace AuthService

/-- Device info as the auth-service extractor returns it: it always
populates all three fields. -/
structure DeviceInfoC where
  user_agent : String
  accept_language : String
  x_forwarded_for : String
deriving DecidableEq, Repr

/-- View of a complete device-info record as the optional-field dict. -/
def DeviceInfoC.toDeviceInfo (i : DeviceInfoC) : DeviceInfo :=
  { user_agent := some i.user_agent,
    accept_language := some i.accept_language,
    x_forwarded_for := some i.x_forwarded_for }

/-- `auth-service/utils/extract_info.py::extract_info`: like the
session-service extractor except the forwarded-for fallback is guarded by
`if not x_forwarded_for:` — the *falsy* test, so an empty-string header also
falls back to the peer host. -/
def extract_info (req : PyRequest) : DeviceInfoC :=
  let user_agent := (headerGet req "User-Agent").getD "Unknown"
  let accept_language := (headerGet req "Accept-Language").getD ""
  let fallback : String :=
    match req.client with
    | some c => c.host
    | none => "Unknown"
  let x_forwarded_for :=
    match headerGet req "X-Forwarded-For" with
    | some v => if v = "" then fallback else v
    | none => fallback
  { user_agent := user_agent,
    accept_language := accept_language,
    x_forwarded_for := x_forwarded_for }

/-- Modelled from the spec: `auth-service/service/security/core/fingerprint.py`
(imported by `controllers/session_controller.py`) is not present under the
sources; per §4.1 the generator hashes the canonical concatenation
`ip + "|" + user_agent + "|" + accept_language` (SHA-256, lowercase hex over
UTF-8), with defaults already substituted by the caller. -/
def generate_fingerprint (ip user_agent accept_language : String) : String :=
  sha256Hex (ip ++ "|" ++ user_agent ++ "|" ++ accept_language)

/-- Modelled from the spec: `auth-service/service/session/features/save.py`
and its `InitRedis` store client are not present under the sources; per §4.2
`save` serializes the record fields and writes them under the session id
with the fixed expiry (60 seconds in the observed configuration), matching
the session-service twin. -/
def save_session (session_id : String) (session_data : List (String × JPrim)) :
    List RedisCmd :=
  [RedisCmd.setCmd session_id (dumps (.jobj session_data)) 60]

/-- `auth-service/schema/sessionSchema.py::SessionSchema` (validated). -/
structure SessionSchema where
  session_id : String
  fingerprint : String
  user_id : Int
deriving DecidableEq, Repr

/-- Pydantic's lax string-to-int coercion for the `user_id: int` field:
an optional sign followed by at least one digit. -/
def parsePyInt (s : String) : Option Int :=
  match s.data with
  | '-' :: ds => if ds ≠ [] ∧ ds.all isDigitCh then some (-(digitsToNat 0 ds : Int)) else none
  | '+' :: ds => if ds ≠ [] ∧ ds.all isDigitCh then some ((digitsToNat 0 ds : Int)) else none
  | ds => if ds ≠ [] ∧ ds.all isDigitCh then some ((digitsToNat 0 ds : Int)) else none

/-- Construction of a `SessionSchema(...)`: pydantic runs the field
validators — `session_id` must be non-empty, `fingerprint` must be
non-empty, `user_id` must coerce to an integer — and raises otherwise. -/
def mkSessionSchema (session_id fingerprint user_id : String) :
    Except String SessionSchema :=
  if session_id = "" then .error "Session ID is required"
  else if fingerprint = "" then .error "Fingerprint is required"
  else
    match parsePyInt user_id with
    | some n => .ok ⟨session_id, fingerprint, n⟩
    | none => .error "validation error"

/-- `SessionSchema.validate_all`: re-runs both field validators and returns
the record's fields. -/
def validate_all (s : SessionSchema) : Except String SessionSchema :=
  if s.session_id = "" then .error "Session ID is required"
  else if s.fingerprint = "" then .error "Fingerprint is required"
  else .ok s

/-- The `{"fingerprint": ..., "session_id": ..., "info": ...}` payload of
`generate_session`. -/
structure GenData where
  fingerprint : String
  session_id : String
  info : DeviceInfoC
deriving DecidableEq, Repr

/-- The ad-hoc `{"success": ..., "message": ..., "data": ...}` response of
`generate_session`. -/
structure GenResult where
  success : Bool
  message : String
  data : Option GenData
deriving DecidableEq, Repr

/-- The response of `create_session`, carrying the validated record on
success. -/
structure CreateResult where
  success : Bool
  message : String
  data : Option SessionSchema
deriving DecidableEq, Repr

/-- Environment of one issuance: store contents, current time, store
liveness, and the fresh `str(uuid.uuid4())` value. -/
structure IssueEnv where
  store : Store
  now : Nat
  redisUp : Bool
  freshSid : String
deriving DecidableEq

/-- `SessionController.generate_session`: draw the fresh session id, extract
device info, compute the fingerprint, and return the success payload.  The
`if not request:` and `if fingerprint is None:` guards are dead (a `Request`
object is truthy; the generator returns a string). -/
def generate_session (freshSid : String) (req : PyRequest) : GenResult :=
  let session_id := freshSid
  let info := extract_info req
  let fingerprint :=
    generate_fingerprint info.x_forwarded_for info.user_agent info.accept_language
  { success := true,
    message := "Session generated successfully",
    data := some ⟨fingerprint, session_id, info⟩ }

/-- `SessionController.create_session`: generate, validate via
`SessionSchema` and `validate_all`, persist `{"fingerprint", "user_id"}`
via `save_session`, and return the structured result.  Every raised
exception (validation failure, coercion failure, store write failure) is
caught by the enclosing `except` and returned as a failure result; a failed
write leaves the store unchanged. -/
def create_session (env : IssueEnv) (req : PyRequest) (user_id : String) :
    CreateResult × Store :=
  let failure : CreateResult :=
    ⟨false, "Error creating session! Please try again later.", none⟩
  match (generate_session env.freshSid req).data with
  | none => (failure, env.store)
  | some gdata =>
    match mkSessionSchema gdata.session_id gdata.fingerprint user_id with
    | .error _ => (failure, env.store)
    | .ok schema =>
      match validate_all schema with
      | .error _ => (failure, env.store)
      | .ok session =>
        let session_keys : List (String × JPrim) :=
          [("fingerprint", .pstr session.fingerprint),
           ("user_id", .pint session.user_id)]
        if env.redisUp then
          (⟨true, "Session created successfully", some session⟩,
           applyCmds env.store env.now (save_session session.session_id session_keys))
        else (failure, env.store)

end AuthService

/-- Sanity check of the SHA-256 model against the published FIPS test vector
for the empty message. -/
theorem sha256Hex_empty :
    sha256Hex "" = "e3b0c44298fc1c149afbf4c8996fb92427ae41e4649b934ca495991b7852b855" := by
  decide

/-- Sanity check of the SHA-256 model against the published FIPS test vector
for the message "abc". -/
theorem sha256Hex_abc :
    sha256Hex "abc" = "ba7816bf8f01cfea414140de5dae2223b00361a396177a9cb410ff61f20015ad" := by
  decide

/-! ## Digest shape lemmas -/

/-- Lowercase hexadecimal digit predicate. -/
def isLowerHexDigit (c : Char) : Bool :=
  (48 ≤ c.toNat && c.toNat ≤ 57) || (97 ≤ c.toNat && c.toNat ≤ 102)

theorem hexChar_lower_hex : ∀ n, n < 16 → isLowerHexDigit (SHA256.hexChar n) = true := by
  decide

theorem bytesBE_length (n v : Nat) : (SHA256.bytesBE n v).length = n := by
  induction n generalizing v with
  | zero => rfl
  | succ k ih => simp [SHA256.bytesBE, ih]

theorem bytesBE_lt (n v : Nat) : ∀ b ∈ SHA256.bytesBE n v, b < 256 := by
  induction n generalizing v with
  | zero => intro b hb; simp [SHA256.bytesBE] at hb
  | succ k ih =>
    intro b hb
    simp only [SHA256.bytesBE, List.mem_append, List.mem_singleton] at hb
    rcases hb with h | h
    · exact ih _ _ h
    · subst h; exact Nat.mod_lt _ (by norm_num)

theorem roundFn_length (s : List Nat) (kw : Nat × Nat) :
    (SHA256.roundFn s kw).length = s.length := by
  unfold SHA256.roundFn
  split
  · simp
  · rfl

theorem foldl_roundFn_length (l : List (Nat × Nat)) (s : List Nat) :
    (l.foldl SHA256.roundFn s).length = s.length := by
  induction l generalizing s with
  | nil => rfl
  | cons a t ih => rw [List.foldl_cons, ih, roundFn_length]

theorem compress_length (h b : List Nat) (hl : h.length = 8) :
    (SHA256.compress h b).length = 8 := by
  unfold SHA256.compress
  simp [List.length_zip, foldl_roundFn_length, hl]

theorem foldl_compress_length (blocks : List (List Nat)) (h : List Nat)
    (hl : h.length = 8) : (blocks.foldl SHA256.compress h).length = 8 := by
  induction blocks generalizing h with
  | nil => exact hl
  | cons b t ih => exact ih _ (compress_length _ _ hl)

theorem flatten_bytesBE_length (ws : List Nat) :
    ((ws.map (SHA256.bytesBE 4)).flatten).length = 4 * ws.length := by
  induction ws with
  | nil => rfl
  | cons w t ih =>
    simp only [List.map_cons, List.flatten_cons, List.length_append, bytesBE_length, ih,
      List.length_cons]
    ring

theorem sha256_length (msg : List Nat) : (SHA256.sha256 msg).length = 32 := by
  unfold SHA256.sha256
  rw [flatten_bytesBE_length, foldl_compress_length _ _ (by rfl)]

theorem sha256_bytes_lt (msg : List Nat) : ∀ b ∈ SHA256.sha256 msg, b < 256 := by
  intro b hb
  unfold SHA256.sha256 at hb
  rw [List.mem_flatten] at hb
  obtain ⟨l, hl, hbl⟩ := hb
  rw [List.mem_map] at hl
  obtain ⟨w, _, rfl⟩ := hl
  exact bytesBE_lt _ _ b hbl

theorem hexdigest_length (bytes : List Nat) :
    (SHA256.hexdigest bytes).length = 2 * bytes.length := by
  show ((bytes.map SHA256.byteHex).flatten).length = 2 * bytes.length
  induction bytes with
  | nil => rfl
  | cons b t ih =>
    simp only [List.map_cons, List.flatten_cons, List.length_append, ih, List.length_cons]
    show 2 + 2 * t.length = 2 * (t.length + 1)
    ring

theorem hexdigest_chars (bytes : List Nat) (hB : ∀ b ∈ bytes, b < 256) :
    ((SHA256.hexdigest bytes).data).all isLowerHexDigit = true := by
  rw [List.all_eq_true]
  show ∀ c ∈ (bytes.map SHA256.byteHex).flatten, isLowerHexDigit c = true
  intro c hc
  rw [List.mem_flatten] at hc
  obtain ⟨l, hl, hcl⟩ := hc
  rw [List.mem_map] at hl
  obtain ⟨b, hb, rfl⟩ := hl
  have hb256 := hB b hb
  simp only [SHA256.byteHex, List.mem_cons, List.mem_singleton, List.not_mem_nil,
    or_false] at hcl
  rcases hcl with rfl | rfl
  · exact hexChar_lower_hex _ (Nat.div_lt_of_lt_mul (by omega))
  · exact hexChar_lower_hex _ (Nat.mod_lt _ (by norm_num))

/-! ## Claims about the fingerprint generator and the extractors -/

/-- C3: for every input triple, `generate_fingerprint` returns the lowercase
hexadecimal SHA-256 digest of the UTF-8 encoding of
`ip ++ "|" ++ user_agent ++ "|" ++ accept_language` in that exact field
order (first conjunct); the digest is 64 characters long and consists of
lowercase hexadecimal digits (second and third conjuncts); and the function
is a pure function of its input, so repeated calls on identical inputs
return the same output (last conjunct, definitional in the embedding). -/
theorem fingerprint_is_sha256_of_canonical_string (ip user_agent accept_language : String) :
    SessionService.generate_fingerprint ⟨some user_agent, some accept_language, some ip⟩
      = SHA256.hexdigest (SHA256.sha256 (utf8Encode
          (ip ++ "|" ++ user_agent ++ "|" ++ accept_language)))
    ∧ (SessionService.generate_fingerprint
        ⟨some user_agent, some accept_language, some ip⟩).length = 64
    ∧ ((SessionService.generate_fingerprint
        ⟨some user_agent, some accept_language, some ip⟩).data).all isLowerHexDigit = true
    ∧ SessionService.generate_fingerprint ⟨some user_agent, some accept_language, some ip⟩
      = SessionService.generate_fingerprint ⟨some user_agent, some accept_language, some ip⟩ := by
  refine ⟨rfl, ?_, ?_, rfl⟩
  · show (SHA256.hexdigest (SHA256.sha256 _)).length = 64
    rw [hexdigest_length, sha256_length]
  · exact hexdigest_chars _ (sha256_bytes_lt _)

/-- C9 counterexample: the generator itself substitutes defaults for missing
input fields — on the empty device-info dict it hashes
`"Unknown|Unknown|"` rather than failing, and its output collapses with the
output on a distinct, fully-populated dict carrying the default values.
This falsifies "generate_fingerprint never substitutes a default for a
missing input field itself" (the `.get` calls at
`fingerprint.py` lines 11-13 carry defaults). -/
theorem generator_substitutes_defaults_itself :
    SessionService.generate_fingerprint ⟨none, none, none⟩
      = sha256Hex ("Unknown" ++ "|" ++ "Unknown" ++ "|" ++ "")
    ∧ (⟨none, none, none⟩ : DeviceInfo) ≠ ⟨some "Unknown", some "", some "Unknown"⟩
    ∧ SessionService.generate_fingerprint ⟨none, none, none⟩
      = SessionService.generate_fingerprint ⟨some "Unknown", some "", some "Unknown"⟩ :=
  ⟨rfl, by decide, rfl⟩

/-- C9 amended: the `"Unknown"`/empty substitutions for missing request
headers are performed by `extract_info` before `generate_fingerprint` is
invoked — the extractor's output always carries all three fields, and on
such complete inputs the generator hashes exactly the extracted values (its
own internal `.get` defaults never take effect); however the generator does
carry identical defaults of its own which fire on dicts with missing keys. -/
theorem extractor_substitutes_defaults_before_generator (req : PyRequest) :
    ∃ ua al ip : String,
      SessionService.extract_info req = ⟨some ua, some al, some ip⟩
      ∧ SessionService.generate_fingerprint (SessionService.extract_info req)
          = sha256Hex (ip ++ "|" ++ ua ++ "|" ++ al) :=
  ⟨(headerGet req "User-Agent").getD "Unknown",
   (headerGet req "Accept-Language").getD "",
   (match headerGet req "X-Forwarded-For" with
    | some v => v
    | none => match req.client with
              | some c => c.host
              | none => "Unknown"),
   rfl, rfl⟩

/-- A request whose `X-Forwarded-For` header is present but empty, behind a
peer address. -/
def reqEmptyXff : PyRequest :=
  { path := "/app", cookies := [],
    headers := [("User-Agent", "UA-X"), ("Accept-Language", "en"), ("X-Forwarded-For", "")],
    client := some ⟨"9.9.9.9"⟩ }

/-- C10 counterexample: on a request carrying an empty `X-Forwarded-For`
header the two extractors disagree — the auth-service extractor
(`if not x_forwarded_for:`) falls back to the peer address while the
session-service extractor (`if x_forwarded_for is None:`) keeps the empty
string — so the verification-side fingerprint differs from the one stored
at issuance for this request. -/
theorem extractors_disagree_on_empty_forwarded_header :
    (AuthService.extract_info reqEmptyXff).x_forwarded_for = "9.9.9.9"
    ∧ (SessionService.extract_info reqEmptyXff).x_forwarded_for = some ""
    ∧ (AuthService.extract_info reqEmptyXff).toDeviceInfo
        ≠ SessionService.extract_info reqEmptyXff
    ∧ AuthService.generate_fingerprint
        (AuthService.extract_info reqEmptyXff).x_forwarded_for
        (AuthService.extract_info reqEmptyXff).user_agent
        (AuthService.extract_info reqEmptyXff).accept_language
      ≠ SessionService.generate_fingerprint (SessionService.extract_info reqEmptyXff) :=
  ⟨rfl, rfl, by decide, by decide⟩

/-- C10 amended: whenever the `X-Forwarded-For` header is not present-but-
empty (absent, or present with a non-empty value), the issuance-side and
verification-side extractors produce equal mappings, and a verification
request with headers and peer address identical to the issuing request
recomputes exactly the fingerprint stored at issuance. -/
theorem extractors_agree_without_empty_forwarded_header (req : PyRequest)
    (h : headerGet req "X-Forwarded-For" ≠ some "") :
    (AuthService.extract_info req).toDeviceInfo = SessionService.extract_info req
    ∧ AuthService.generate_fingerprint
        (AuthService.extract_info req).x_forwarded_for
        (AuthService.extract_info req).user_agent
        (AuthService.extract_info req).accept_language
      = SessionService.generate_fingerprint (SessionService.extract_info req) := by
  have key : (AuthService.extract_info req).toDeviceInfo = SessionService.extract_info req := by
    unfold AuthService.extract_info SessionService.extract_info AuthService.DeviceInfoC.toDeviceInfo
    rcases hh : headerGet req "X-Forwarded-For" with _ | v
    · simp only [hh]
    · have hv : v ≠ "" := by
        intro he
        exact h (by rw [hh, he])
      simp only [hh, if_neg hv]
  refine ⟨key, ?_⟩
  rw [← key]
  rfl

/-- A request with no `X-Forwarded-For` header at all. -/
def reqNoXff : PyRequest :=
  { path := "/x", cookies := [], headers := [("User-Agent", "W")],
    client := some ⟨"8.8.8.8"⟩ }

/-- Witness for the amended C10 at a concrete request. -/
theorem extractors_agree_without_empty_forwarded_header_witness :
    (AuthService.extract_info reqNoXff).toDeviceInfo = SessionService.extract_info reqNoXff :=
  (extractors_agree_without_empty_forwarded_header reqNoXff (by decide)).1

/-! ## Claims about the verification gateway -/

/-- C1: for a request to a non-exempt path, the gateway forwards to the
downstream handler exactly when the verification checks pass — session
cookie present, fetch yields a structured record (not `None`, not a
string), and the recomputed fingerprint equals the stored one (`verified`);
in every other case, including store connection errors and malformed stored
data, the response is the 302 redirect to the configured auth URL and never
a forward or a raw error.  (When the downstream handler itself raises after
a successful verification, the blanket handler also answers with the
redirect; forwarding is the `callNext` step in the trace.) -/
theorem gateway_forwards_iff_verified (env : SessionService.Env) (req : PyRequest)
    (hpath : req.path ∉ env.excluded_paths) :
    (SessionService.Ev.callNext ∈ (SessionService.dispatch env req).trace
        ↔ SessionService.verified env req = true)
    ∧ (SessionService.verified env req = false →
        (SessionService.dispatch env req).response
          = SessionService.Response.redirect env.auth_url 302)
    ∧ (SessionService.verified env req = true → env.callNextOk = true →
        (SessionService.dispatch env req).response
          = SessionService.Response.downstream req.path) := by
  unfold SessionService.dispatch SessionService.dispatchBody SessionService.verified
  rw [if_neg hpath]
  rcases hc : cookieGet req "session_id" with _ | sid
  · simp
  · rcases hf : (SessionService.fetch_session env.store env.now env.redisUp sid).1 with e | v
    · simp [hf]
    · rcases v with s | n | fields
      · simp [hf]
      · simp [hf]
      · by_cases hm : SessionService.jget fields "fingerprint"
            = some (.pstr (SessionService.generate_fingerprint (SessionService.extract_info req)))
        · by_cases hcn : env.callNextOk <;> simp [hf, hm, hcn]
        · simp [hf, hm]

/-- The standard exemption list of the session service configuration. -/
def excludedW : List String :=
  ["/docs", "/redoc", "/openapi.json", "/health", "/health/", "/auth", "/", "/verified"]

/-- A verification request whose session record matches. -/
def reqW1 : PyRequest :=
  { path := "/app", cookies := [("session_id", "sid-w1")],
    headers := [("User-Agent", "UA-W"), ("Accept-Language", "en-US"),
                ("X-Forwarded-For", "10.0.0.1")],
    client := some ⟨"10.0.0.1"⟩ }

/-- An environment whose store holds the record issued for `reqW1`. -/
def envW1 : SessionService.Env :=
  { excluded_paths := excludedW, auth_url := "http://auth.local/auth",
    store := [("sid-w1",
      ⟨dumps (.jobj [("fingerprint",
          .pstr (SessionService.generate_fingerprint (SessionService.extract_info reqW1))),
        ("user_id", .pint 42)]), 100⟩)],
    now := 50, redisUp := true, callNextOk := true }

/-- Witness for C1 at a concrete verified request. -/
theorem gateway_forwards_iff_verified_witness :
    SessionService.Ev.callNext ∈ (SessionService.dispatch envW1 reqW1).trace :=
  (gateway_forwards_iff_verified envW1 reqW1 (by decide)).1.mpr (by decide)

/-- C2 amended: the gateway short-circuits in the code's order — exemption,
cookie, then device-info extraction and fingerprint recomputation, and only
then the session lookup; a request whose session is absent or expired is
denied without the downstream call, but only *after* device info has been
extracted and the fingerprint computed (the code performs steps 3 and 4 of
the spec in the opposite order). -/
theorem fingerprint_computed_before_lookup (env : SessionService.Env) (req : PyRequest)
    (sid : String)
    (hpath : req.path ∉ env.excluded_paths)
    (hc : cookieGet req "session_id" = some sid) :
    ((SessionService.dispatch env req).trace.take 3
        = [SessionService.Ev.extractInfo, SessionService.Ev.computeFingerprint,
           SessionService.Ev.storeLookup])
    ∧ ((SessionService.fetch_session env.store env.now env.redisUp sid).1
          = .ok (.jstr "Does Not Exist!") →
        (SessionService.dispatch env req).response
            = SessionService.Response.redirect env.auth_url 302
        ∧ SessionService.Ev.callNext ∉ (SessionService.dispatch env req).trace) := by
  unfold SessionService.dispatch SessionService.dispatchBody
  rw [if_neg hpath]
  simp only [hc]
  rcases hf : (SessionService.fetch_session env.store env.now env.redisUp sid).1 with e | v
  · simp [hf]
  · rcases v with s | n | fields
    · simp [hf]
    · simp [hf]
    · by_cases hm : SessionService.jget fields "fingerprint"
          = some (.pstr (SessionService.generate_fingerprint (SessionService.extract_info req)))
      · by_cases hcn : env.callNextOk <;> simp [hf, hm, hcn]
      · simp [hf, hm]

/-- The environment of the C2 counterexample: reachable store, empty
contents. -/
def envC2 : SessionService.Env :=
  { excluded_paths := excludedW, auth_url := "http://auth.local/auth",
    store := [], now := 0, redisUp := true, callNextOk := true }

/-- The request of the C2 counterexample: session cookie present, but no
session exists in the store. -/
def reqC2 : PyRequest :=
  { path := "/app", cookies := [("session_id", "sid-absent")],
    headers := [("User-Agent", "UA"), ("Accept-Language", "en")],
    client := some ⟨"1.2.3.4"⟩ }

/-- C2 counterexample: on a request whose session is absent, the gateway
still extracts device info and computes the fingerprint, and does so
*before* the store lookup (the trace is extraction, fingerprinting, lookup,
in that order) — falsifying the claim that the lookup happens first and
that an absent session is denied without extraction or fingerprinting. -/
theorem lookup_not_before_fingerprint_counterexample :
    (SessionService.fetch_session envC2.store envC2.now envC2.redisUp "sid-absent").1
      = .ok (.jstr "Does Not Exist!")
    ∧ (SessionService.dispatch envC2 reqC2).trace
      = [SessionService.Ev.extractInfo, SessionService.Ev.computeFingerprint,
         SessionService.Ev.storeLookup]
    ∧ (SessionService.dispatch envC2 reqC2).response
      = SessionService.Response.redirect envC2.auth_url 302 := by
  refine ⟨rfl, rfl, rfl⟩

/-- Witness for the amended C2 at a concrete request. -/
theorem fingerprint_computed_before_lookup_witness :
    (SessionService.dispatch envC2 reqC2).trace.take 3
      = [SessionService.Ev.extractInfo, SessionService.Ev.computeFingerprint,
         SessionService.Ev.storeLookup]
    ∧ (SessionService.dispatch envC2 reqC2).response
      = SessionService.Response.redirect envC2.auth_url 302 := by
  have h := fingerprint_computed_before_lookup envC2 reqC2 "sid-absent" (by decide) (by decide)
  exact ⟨h.1, (h.2 (by decide)).1⟩

/-- C4: the externally observable denial is identical for a missing/expired
session and for a fingerprint mismatch — same redirect URL, same status
code — so a client cannot tell which check failed. -/
theorem denials_indistinguishable (env : SessionService.Env)
    (req1 req2 : PyRequest) (sid1 sid2 : String) (s : String)
    (fields : List (String × JPrim))
    (h1p : req1.path ∉ env.excluded_paths)
    (h1c : cookieGet req1 "session_id" = some sid1)
    (h1f : (SessionService.fetch_session env.store env.now env.redisUp sid1).1
        = .ok (.jstr s))
    (h2p : req2.path ∉ env.excluded_paths)
    (h2c : cookieGet req2 "session_id" = some sid2)
    (h2f : (SessionService.fetch_session env.store env.now env.redisUp sid2).1
        = .ok (.jobj fields))
    (h2m : SessionService.jget fields "fingerprint"
        ≠ some (.pstr (SessionService.generate_fingerprint (SessionService.extract_info req2)))) :
    (SessionService.dispatch env req1).response = (SessionService.dispatch env req2).response
    ∧ (SessionService.dispatch env req1).response
      = SessionService.Response.redirect env.auth_url 302 := by
  have d1 : (SessionService.dispatch env req1).response
      = SessionService.Response.redirect env.auth_url 302 := by
    unfold SessionService.dispatch SessionService.dispatchBody
    rw [if_neg h1p]
    simp [h1c, h1f]
  have d2 : (SessionService.dispatch env req2).response
      = SessionService.Response.redirect env.auth_url 302 := by
    unfold SessionService.dispatch SessionService.dispatchBody
    rw [if_neg h2p]
    simp [h2c, h2f, h2m]
  exact ⟨by rw [d1, d2], d1⟩

/-- The environment of the C4 witness: `sid-b` holds a record whose stored
fingerprint can match no recomputation, `sid-a` is absent. -/
def envW4 : SessionService.Env :=
  { excluded_paths := excludedW, auth_url := "http://auth.local/auth",
    store := [("sid-b",
      ⟨dumps (.jobj [("fingerprint", .pstr "deadbeef"), ("user_id", .pint 7)]), 100⟩)],
    now := 50, redisUp := true, callNextOk := true }

/-- C4 witness request denied for session absence. -/
def reqW4a : PyRequest :=
  { path := "/app", cookies := [("session_id", "sid-a")],
    headers := [("User-Agent", "UA1"), ("Accept-Language", "en")],
    client := some ⟨"1.1.1.1"⟩ }

/-- C4 witness request denied for fingerprint mismatch. -/
def reqW4b : PyRequest :=
  { path := "/app", cookies := [("session_id", "sid-b")],
    headers := [("User-Agent", "UA2"), ("Accept-Language", "fr")],
    client := some ⟨"2.2.2.2"⟩ }

/-- Witness for C4 at two concrete denied requests. -/
theorem denials_indistinguishable_witness :
    (SessionService.dispatch envW4 reqW4a).response
      = (SessionService.dispatch envW4 reqW4b).response :=
  (denials_indistinguishable envW4 reqW4a reqW4b "sid-a" "sid-b" "Does Not Exist!"
    [("fingerprint", .pstr "deadbeef"), ("user_id", .pint 7)]
    (by decide) (by decide) (by decide) (by decide) (by decide) (by decide) (by decide)).1

/-- C5: fetching a session id whose key is absent or expired returns the
explicit sentinel value — the *string* `"Does Not Exist!"` — rather than
raising, and a string is distinguishable from every structured record,
including one whose fields are empty. -/
theorem fetch_absent_or_expired_returns_sentinel (st : Store) (now : Nat) (sid : String)
    (h : storeLookup st sid = none
        ∨ ∃ e, storeLookup st sid = some e ∧ e.expiresAt ≤ now) :
    (SessionService.fetch_session st now true sid).1 = .ok (.jstr "Does Not Exist!")
    ∧ ∀ fields, JValue.jstr "Does Not Exist!" ≠ JValue.jobj fields := by
  have hg : storeGet st now sid = none := by
    rcases h with h | ⟨e, he, hexp⟩
    · unfold storeGet
      rw [h]
    · unfold storeGet
      rw [he]
      exact if_neg (by omega)
  refine ⟨?_, by intro fields h; cases h⟩
  show SessionService.get_sessionRes st now true sid = _
  unfold SessionService.get_sessionRes
  simp [hg]

/-- Witness for C5 on the empty store. -/
theorem fetch_absent_or_expired_returns_sentinel_witness :
    (SessionService.fetch_session [] 0 true "nope").1 = .ok (.jstr "Does Not Exist!") :=
  (fetch_absent_or_expired_returns_sentinel [] 0 "nope" (Or.inl rfl)).1

/-! ## Claims about issuance and the store -/

/-- A SHA-256 hex digest is 64 characters, hence never empty. -/
theorem sha256Hex_ne_empty (s : String) : sha256Hex s ≠ "" := by
  intro h
  have hl : (sha256Hex s).length = 64 := by
    unfold sha256Hex
    rw [hexdigest_length, sha256_length]
  rw [h] at hl
  exact absurd hl (by decide)

/-- The fingerprint the auth service computes at issuance for a request. -/
def issuedFingerprint (req : PyRequest) : String :=
  AuthService.generate_fingerprint (AuthService.extract_info req).x_forwarded_for
    (AuthService.extract_info req).user_agent (AuthService.extract_info req).accept_language

/-- C6: issuance is atomic with respect to failure — any failure result
leaves the store untouched (first conjunct); an empty session id or an
integer-coercion failure is rejected by validation before persistence
(second and third conjuncts); a failed store write is reported as failure
(fourth conjunct); and a success result is returned only when the record
was fully written under its session id (fifth conjunct). -/
theorem create_session_is_atomic (env : AuthService.IssueEnv) (req : PyRequest)
    (user_id : String) :
    ((AuthService.create_session env req user_id).1.success = false →
        (AuthService.create_session env req user_id).2 = env.store)
    ∧ (env.freshSid = "" →
        (AuthService.create_session env req user_id).1.success = false)
    ∧ (AuthService.parsePyInt user_id = none →
        (AuthService.create_session env req user_id).1.success = false)
    ∧ (env.redisUp = false →
        (AuthService.create_session env req user_id).1.success = false)
    ∧ ((AuthService.create_session env req user_id).1.success = true →
        env.redisUp = true
        ∧ ∃ n, AuthService.parsePyInt user_id = some n
          ∧ (AuthService.create_session env req user_id).1.data
              = some ⟨env.freshSid, issuedFingerprint req, n⟩
          ∧ (AuthService.create_session env req user_id).2
              = applyCmds env.store env.now
                  (AuthService.save_session env.freshSid
                    [("fingerprint", .pstr (issuedFingerprint req)),
                     ("user_id", .pint n)])) := by
  have hfp : AuthService.generate_fingerprint (AuthService.extract_info req).x_forwarded_for
      (AuthService.extract_info req).user_agent (AuthService.extract_info req).accept_language
      ≠ "" := sha256Hex_ne_empty _
  unfold AuthService.create_session AuthService.generate_session AuthService.mkSessionSchema
    AuthService.validate_all
  by_cases hs : env.freshSid = ""
  · simp [hs]
  · rcases hp : AuthService.parsePyInt user_id with _ | n
    · simp [hs, hfp, hp]
    · by_cases hr : env.redisUp
      · simp [hs, hfp, hp, hr, issuedFingerprint]
      · simp [hs, hfp, hp, hr]

/-- C6 witness: a concrete issuance with an empty fresh session id fails
and leaves the store unchanged; one with Redis down fails; a fully
successful one reports success. -/
theorem create_session_is_atomic_witness :
    (AuthService.create_session ⟨[], 0, true, ""⟩ reqNoXff "7").1.success = false
    ∧ (AuthService.create_session ⟨[], 0, true, ""⟩ reqNoXff "7").2 = [] :=
  ⟨(create_session_is_atomic ⟨[], 0, true, ""⟩ reqNoXff "7").2.1 rfl,
   (create_session_is_atomic ⟨[], 0, true, ""⟩ reqNoXff "7").1
     ((create_session_is_atomic ⟨[], 0, true, ""⟩ reqNoXff "7").2.1 rfl)⟩

/-- C7: every store write goes through `set_session` and stores with the
fixed 60-second expiry measured from the write (first conjunct);
`update_session` and `save_session` are exactly `set_session` (second and
third conjuncts); a fetch issues exactly one `GET`, which leaves the store
unchanged (fourth and fifth conjuncts); and the verification gateway issues
no store mutation at all — the store after a dispatch equals the store
before it (last conjunct). -/
theorem store_writes_fixed_ttl_reads_pure (st : Store) (now : Nat) (sid : String)
    (data : List (String × JPrim)) (redisUp : Bool) (env : SessionService.Env)
    (req : PyRequest) :
    storeLookup (applyCmds st now (SessionService.set_session sid data)) sid
        = some ⟨dumps (.jobj data), now + 60⟩
    ∧ SessionService.update_session sid data = SessionService.set_session sid data
    ∧ SessionService.save_session sid data = SessionService.set_session sid data
    ∧ (SessionService.get_session st now redisUp sid).2 = [RedisCmd.getCmd sid]
    ∧ applyCmds st now (SessionService.get_session st now redisUp sid).2 = st
    ∧ applyCmds env.store env.now (SessionService.dispatch env req).cmds = env.store := by
  refine ⟨?_, rfl, rfl, rfl, rfl, ?_⟩
  · simp [SessionService.set_session, applyCmds, applyCmd, storeLookup]
  · have hcmds : (SessionService.dispatch env req).cmds = []
        ∨ ∃ s, (SessionService.dispatch env req).cmds = [RedisCmd.getCmd s] := by
      unfold SessionService.dispatch SessionService.dispatchBody
      by_cases hpath : req.path ∈ env.excluded_paths
      · rw [if_pos hpath]
        by_cases hcn : env.callNextOk <;> simp [hcn]
      · rw [if_neg hpath]
        rcases hc : cookieGet req "session_id" with _ | sid2
        · simp
        · refine Or.inr ⟨sid2, ?_⟩
          simp only [SessionService.fetch_session, SessionService.get_session]
          cases SessionService.get_sessionRes env.store env.now env.redisUp sid2 with
          | error e => rfl
          | ok v =>
            cases v with
            | jstr s => rfl
            | jint n => rfl
            | jobj fields =>
              by_cases hm : SessionService.jget fields "fingerprint"
                  = some (JPrim.pstr (SessionService.generate_fingerprint
                      (SessionService.extract_info req)))
              · by_cases hcn : env.callNextOk <;> simp [hm, hcn]
              · simp [hm]
    rcases hcmds with h | ⟨s, h⟩ <;> rw [h] <;> rfl

/-! ## JSON round trip: decimal numbers -/

/-- Value of a little-endian digit list. -/
def fromDigitsLE : List Nat → Nat
  | [] => 0
  | d :: ds => d + 10 * fromDigitsLE ds

theorem natDigitsLE_lt (fuel n : Nat) : ∀ d ∈ natDigitsLE fuel n, d < 10 := by
  induction fuel generalizing n with
  | zero => intro d hd; simp [natDigitsLE] at hd
  | succ f ih =>
    intro d hd
    unfold natDigitsLE at hd
    by_cases h0 : n = 0
    · simp [h0] at hd
    · rw [if_neg h0] at hd
      rcases List.mem_cons.mp hd with rfl | h
      · exact Nat.mod_lt _ (by norm_num)
      · exact ih _ _ h

theorem natDigitsLE_spec (fuel n : Nat) (h : n ≤ fuel) :
    fromDigitsLE (natDigitsLE fuel n) = n := by
  induction fuel generalizing n with
  | zero =>
    have hn : n = 0 := by omega
    subst hn
    rfl
  | succ f ih =>
    unfold natDigitsLE
    by_cases h0 : n = 0
    · simp [h0, fromDigitsLE]
    · rw [if_neg h0]
      have hdiv : n / 10 ≤ f := by
        have : n / 10 < n := Nat.div_lt_self (Nat.pos_of_ne_zero h0) (by norm_num)
        omega
      simp only [fromDigitsLE, ih _ hdiv]
      omega

theorem natDigitsLE_ne_nil (fuel n : Nat) (h0 : 0 < n) (h : n ≤ fuel) :
    natDigitsLE fuel n ≠ [] := by
  cases fuel with
  | zero => omega
  | succ f =>
    unfold natDigitsLE
    rw [if_neg (by omega)]
    simp

theorem digitsToNat_nil (acc : Nat) : digitsToNat acc [] = acc := rfl

theorem digitsToNat_cons (acc : Nat) (c : Char) (cs : List Char) :
    digitsToNat acc (c :: cs) = digitsToNat (acc * 10 + (c.toNat - 48)) cs := rfl

theorem digitsToNat_append (acc : Nat) (l1 l2 : List Char) :
    digitsToNat acc (l1 ++ l2) = digitsToNat (digitsToNat acc l1) l2 := by
  induction l1 generalizing acc with
  | nil => rfl
  | cons c t ih =>
    show digitsToNat (acc * 10 + (c.toNat - 48)) (t ++ l2) = _
    rw [ih]
    rfl

theorem digitsToNat_acc (acc : Nat) (l : List Char) :
    digitsToNat acc l = acc * 10 ^ l.length + digitsToNat 0 l := by
  induction l generalizing acc with
  | nil =>
    rw [digitsToNat_nil, digitsToNat_nil]
    simp
  | cons c t ih =>
    rw [digitsToNat_cons, digitsToNat_cons 0, ih (acc * 10 + (c.toNat - 48)),
        ih (0 * 10 + (c.toNat - 48)), List.length_cons]
    ring

theorem digitChar_isDigit : ∀ d, d < 10 → isDigitCh (Char.ofNat (48 + d)) = true := by
  decide

theorem digitChar_val : ∀ d, d < 10 → (Char.ofNat (48 + d)).toNat - 48 = d := by
  decide

theorem valBE_rev_map (ds : List Nat) (h : ∀ d ∈ ds, d < 10) :
    digitsToNat 0 ((ds.reverse).map (fun d => Char.ofNat (48 + d))) = fromDigitsLE ds := by
  induction ds with
  | nil => rfl
  | cons d t ih =>
    have hd : d < 10 := h d (List.mem_cons_self d t)
    have ht : ∀ x ∈ t, x < 10 := fun x hx => h x (List.mem_cons_of_mem _ hx)
    simp only [List.reverse_cons, List.map_append, List.map_cons, List.map_nil]
    rw [digitsToNat_append, digitsToNat_cons, digitsToNat_nil]
    rw [ih ht, digitChar_val d hd]
    simp only [fromDigitsLE]
    ring

theorem renderNat_all_digits (n : Nat) : ∀ c ∈ renderNat n, isDigitCh c = true := by
  intro c hc
  unfold renderNat at hc
  by_cases h0 : n = 0
  · rw [if_pos h0] at hc
    simp only [List.mem_singleton] at hc
    subst hc
    decide
  · rw [if_neg h0] at hc
    rw [List.mem_map] at hc
    obtain ⟨d, hd, rfl⟩ := hc
    exact digitChar_isDigit d (natDigitsLE_lt n n d (List.mem_reverse.mp hd))

theorem renderNat_ne_nil (n : Nat) : renderNat n ≠ [] := by
  unfold renderNat
  by_cases h0 : n = 0
  · simp [h0]
  · rw [if_neg h0]
    simp only [ne_eq, List.map_eq_nil_iff, List.reverse_eq_nil_iff]
    exact natDigitsLE_ne_nil n n (Nat.pos_of_ne_zero h0) le_rfl

theorem digitsToNat_renderNat (n : Nat) : digitsToNat 0 (renderNat n) = n := by
  unfold renderNat
  by_cases h0 : n = 0
  · subst h0
    decide
  · rw [if_neg h0]
    rw [valBE_rev_map _ (natDigitsLE_lt n n)]
    exact natDigitsLE_spec n n le_rfl

/-- Head of the remainder is not a digit (or the remainder is empty). -/
def noDigitHead : List Char → Bool
  | [] => true
  | c :: _ => !(isDigitCh c)

theorem takeWhile_append_all {p : Char → Bool} (a r : List Char)
    (h : ∀ c ∈ a, p c = true) :
    (a ++ r).takeWhile p = a ++ r.takeWhile p := by
  induction a with
  | nil => rfl
  | cons c t ih =>
    have hc := h c (List.mem_cons_self c t)
    have ih2 := ih (fun x hx => h x (List.mem_cons_of_mem _ hx))
    simp [List.takeWhile_cons, hc, ih2]

theorem dropWhile_append_all {p : Char → Bool} (a r : List Char)
    (h : ∀ c ∈ a, p c = true) :
    (a ++ r).dropWhile p = r.dropWhile p := by
  induction a with
  | nil => rfl
  | cons c t ih =>
    simp only [List.cons_append, List.dropWhile_cons, h c (List.mem_cons_self c t), if_true]
    exact ih (fun x hx => h x (List.mem_cons_of_mem _ hx))

theorem takeWhile_nil_of_noDigitHead (r : List Char) (h : noDigitHead r = true) :
    r.takeWhile isDigitCh = [] := by
  cases r with
  | nil => rfl
  | cons c t =>
    simp only [noDigitHead, Bool.not_eq_true'] at h
    simp [List.takeWhile_cons, h]

theorem dropWhile_id_of_noDigitHead (r : List Char) (h : noDigitHead r = true) :
    r.dropWhile isDigitCh = r := by
  cases r with
  | nil => rfl
  | cons c t =>
    simp only [noDigitHead, Bool.not_eq_true'] at h
    simp [List.dropWhile_cons, h]

theorem parseNatTok_round (n : Nat) (rest : List Char) (h : noDigitHead rest = true) :
    parseNatTok (renderNat n ++ rest) = some (n, rest) := by
  unfold parseNatTok
  rw [takeWhile_append_all _ _ (renderNat_all_digits n),
      takeWhile_nil_of_noDigitHead rest h,
      dropWhile_append_all _ _ (renderNat_all_digits n),
      dropWhile_id_of_noDigitHead rest h]
  rw [if_neg (by simp [renderNat_ne_nil n])]
  rw [List.append_nil, digitsToNat_renderNat]

theorem renderNat_head (n : Nat) :
    ∃ c cs, renderNat n = c :: cs ∧ isDigitCh c = true := by
  rcases hr : renderNat n with _ | ⟨c, cs⟩
  · exact absurd hr (renderNat_ne_nil n)
  · exact ⟨c, cs, rfl, renderNat_all_digits n c (by rw [hr]; exact List.mem_cons_self c cs)⟩

theorem parseIntTok_round (i : Int) (rest : List Char) (h : noDigitHead rest = true) :
    parseIntTok (renderInt i ++ rest) = some (i, rest) := by
  unfold renderInt
  by_cases hneg : i < 0
  · rw [if_pos hneg]
    show parseIntTok ('-' :: (renderNat i.natAbs ++ rest)) = _
    simp only [parseIntTok]
    rw [if_pos trivial, parseNatTok_round _ _ h]
    simp only [Option.map]
    have hi : -(i.natAbs : Int) = i := by omega
    rw [hi]
  · rw [if_neg hneg]
    obtain ⟨c, cs, hrn, hdig⟩ := renderNat_head i.natAbs
    rw [hrn]
    show parseIntTok (c :: (cs ++ rest)) = _
    simp only [parseIntTok]
    have hcne : c ≠ '-' := by
      intro hc
      rw [hc] at hdig
      exact absurd hdig (by decide)
    rw [if_neg hcne]
    have hassoc : c :: (cs ++ rest) = (c :: cs) ++ rest := rfl
    rw [hassoc, ← hrn, parseNatTok_round _ _ h]
    simp only [Option.map]
    have hi : (i.natAbs : Int) = i := by omega
    rw [hi]

/-! ## JSON round trip: strings -/

theorem char_toNat_inj {a b : Char} (h : a.toNat = b.toNat) : a = b := by
  cases a
  cases b
  simp only [Char.toNat] at h
  congr 1
  exact UInt32.eq_of_val_eq (by exact Fin.ext h)

theorem toNat_ofNat_valid (n : Nat) (h : n.isValidChar) : (Char.ofNat n).toNat = n := by
  unfold Char.ofNat
  rw [dif_pos h]
  unfold Char.ofNatAux Char.toNat
  simp [UInt32.toNat, UInt32.ofNat']

theorem ofNat_toNat_self (c : Char) : Char.ofNat c.toNat = c :=
  char_toNat_inj (toNat_ofNat_valid _ c.valid)

/-- The Unicode scalar value ranges of a `Char`. -/
theorem char_valid_nat (c : Char) :
    c.toNat < 55296 ∨ (57343 < c.toNat ∧ c.toNat < 1114112) := c.valid

theorem hexVal_hexChar : ∀ d, d < 16 → hexVal (SHA256.hexChar d) = some d := by
  decide

theorem parseHex4_hex4 (n : Nat) (hn : n < 65536) (rest : List Char) :
    parseHex4 (hex4 n ++ rest) = some (n, rest) := by
  have h1 := hexVal_hexChar (n / 4096 % 16) (Nat.mod_lt _ (by norm_num))
  have h2 := hexVal_hexChar (n / 256 % 16) (Nat.mod_lt _ (by norm_num))
  have h3 := hexVal_hexChar (n / 16 % 16) (Nat.mod_lt _ (by norm_num))
  have h4 := hexVal_hexChar (n % 16) (Nat.mod_lt _ (by norm_num))
  show parseHex4 (SHA256.hexChar (n / 4096 % 16) :: SHA256.hexChar (n / 256 % 16) ::
    SHA256.hexChar (n / 16 % 16) :: SHA256.hexChar (n % 16) :: rest) = _
  simp only [parseHex4, h1, h2, h3, h4]
  have hval : (((n / 4096 % 16) * 16 + n / 256 % 16) * 16 + n / 16 % 16) * 16 + n % 16 = n := by
    omega
  rw [hval]

theorem escapeChar_ne_nil (c : Char) : escapeChar c ≠ [] := by
  unfold escapeChar
  split_ifs <;> simp

theorem length_le_flatten_escape (l : List Char) :
    l.length ≤ ((l.map escapeChar).flatten).length := by
  induction l with
  | nil => simp
  | cons c t ih =>
    simp only [List.map_cons, List.flatten_cons, List.length_append, List.length_cons]
    have h1 : 1 ≤ (escapeChar c).length := by
      rcases he : escapeChar c with _ | ⟨x, xs⟩
      · exact absurd he (escapeChar_ne_nil c)
      · simp
    omega

/-- Round trip for the string body: the parser recovers exactly the escaped
characters and stops at the closing quote. -/
theorem parseStrBody_round (l : List Char) : ∀ (fuel : Nat) (rest : List Char),
    l.length < fuel →
    parseStrBody fuel ((l.map escapeChar).flatten ++ '"' :: rest) = some (l, rest) := by
  induction l with
  | nil =>
    intro fuel rest hf
    cases fuel with
    | zero => omega
    | succ f =>
      show parseStrBody (f + 1) ('"' :: rest) = _
      simp only [parseStrBody, Char.reduceEq, reduceIte]
  | cons c t ih =>
    intro fuel rest hf
    cases fuel with
    | zero => omega
    | succ f =>
      have hft : t.length < f := by
        simp only [List.length_cons] at hf
        omega
      have htail := ih f rest hft
      by_cases h1 : c = '"'
      · subst h1
        have he : escapeChar '"' = ['\\', '"'] := by decide
        simp only [List.map_cons, List.flatten_cons, he, List.append_assoc, List.cons_append,
          List.nil_append, parseStrBody, Char.reduceEq, reduceIte]
        rw [htail]
        rfl
      · by_cases h2 : c = '\\'
        · subst h2
          have he : escapeChar '\\' = ['\\', '\\'] := by decide
          simp only [List.map_cons, List.flatten_cons, he, List.append_assoc, List.cons_append,
            List.nil_append, parseStrBody, Char.reduceEq, reduceIte]
          rw [htail]
          rfl
        · by_cases h3 : c.toNat = 10
          · have he : escapeChar c = ['\\', 'n'] := by
              unfold escapeChar
              rw [if_neg h1, if_neg h2, if_pos h3]
            have hch : '\n' = c := char_toNat_inj (by rw [h3]; decide)
            simp only [List.map_cons, List.flatten_cons, he, List.append_assoc, List.cons_append,
              List.nil_append, parseStrBody, Char.reduceEq, reduceIte]
            rw [htail, hch]
            rfl
          · by_cases h4 : c.toNat = 13
            · have he : escapeChar c = ['\\', 'r'] := by
                unfold escapeChar
                rw [if_neg h1, if_neg h2, if_neg h3, if_pos h4]
              have hch : Char.ofNat 13 = c := char_toNat_inj (by rw [h4]; decide)
              simp only [List.map_cons, List.flatten_cons, he, List.append_assoc,
                List.cons_append, List.nil_append, parseStrBody, Char.reduceEq, reduceIte]
              rw [htail, hch]
              rfl
            · by_cases h5 : c.toNat = 9
              · have he : escapeChar c = ['\\', 't'] := by
                  unfold escapeChar
                  rw [if_neg h1, if_neg h2, if_neg h3, if_neg h4, if_pos h5]
                have hch : '\t' = c := char_toNat_inj (by rw [h5]; decide)
                simp only [List.map_cons, List.flatten_cons, he, List.append_assoc,
                  List.cons_append, List.nil_append, parseStrBody, Char.reduceEq, reduceIte]
                rw [htail, hch]
                rfl
              · by_cases h6 : c.toNat = 8
                · have he : escapeChar c = ['\\', 'b'] := by
                    unfold escapeChar
                    rw [if_neg h1, if_neg h2, if_neg h3, if_neg h4, if_neg h5, if_pos h6]
                  have hch : Char.ofNat 8 = c := char_toNat_inj (by rw [h6]; decide)
                  simp only [List.map_cons, List.flatten_cons, he, List.append_assoc,
                    List.cons_append, List.nil_append, parseStrBody, Char.reduceEq, reduceIte]
                  rw [htail, hch]
                  rfl
                · by_cases h7 : c.toNat = 12
                  · have he : escapeChar c = ['\\', 'f'] := by
                      unfold escapeChar
                      rw [if_neg h1, if_neg h2, if_neg h3, if_neg h4, if_neg h5, if_neg h6,
                        if_pos h7]
                    have hch : Char.ofNat 12 = c := char_toNat_inj (by rw [h7]; decide)
                    simp only [List.map_cons, List.flatten_cons, he, List.append_assoc,
                      List.cons_append, List.nil_append, parseStrBody, Char.reduceEq, reduceIte]
                    rw [htail, hch]
                    rfl
                  · by_cases h8 : 32 ≤ c.toNat ∧ c.toNat ≤ 126
                    · have he : escapeChar c = [c] := by
                        unfold escapeChar
                        rw [if_neg h1, if_neg h2, if_neg h3, if_neg h4, if_neg h5, if_neg h6,
                          if_neg h7, if_pos h8]
                      simp only [List.map_cons, List.flatten_cons, he, List.append_assoc,
                        List.cons_append, List.nil_append, parseStrBody]
                      rw [if_neg h1, if_neg h2, if_neg (by omega : ¬(c.toNat < 32)), htail]
                      rfl
                    · by_cases h9 : c.toNat < 65536
                      · have he : escapeChar c = '\\' :: 'u' :: hex4 c.toNat := by
                          unfold escapeChar
                          rw [if_neg h1, if_neg h2, if_neg h3, if_neg h4, if_neg h5, if_neg h6,
                            if_neg h7, if_neg h8, if_pos h9]
                        have hx := parseHex4_hex4 c.toNat h9
                          ((t.map escapeChar).flatten ++ '"' :: rest)
                        simp only [List.map_cons, List.flatten_cons, he, List.append_assoc,
                          List.cons_append, List.nil_append, parseStrBody, Char.reduceEq,
                          reduceIte, hx]
                        rw [if_neg (by rcases char_valid_nat c with hv | hv <;> omega),
                          if_neg (by rcases char_valid_nat c with hv | hv <;> omega), htail,
                          ofNat_toNat_self]
                        rfl
                      · have hvr : 57343 < c.toNat ∧ c.toNat < 1114112 := by
                          rcases char_valid_nat c with hv | hv
                          · omega
                          · exact hv
                        have he : escapeChar c =
                            ('\\' :: 'u' :: hex4 (55296 + (c.toNat - 65536) / 1024)) ++
                            ('\\' :: 'u' :: hex4 (56320 + (c.toNat - 65536) % 1024)) := by
                          unfold escapeChar
                          rw [if_neg h1, if_neg h2, if_neg h3, if_neg h4, if_neg h5, if_neg h6,
                            if_neg h7, if_neg h8, if_neg h9]
                        have hhi : 55296 + (c.toNat - 65536) / 1024 < 65536 := by omega
                        have hlo : 56320 + (c.toNat - 65536) % 1024 < 65536 := by omega
                        have hx1 := parseHex4_hex4 (55296 + (c.toNat - 65536) / 1024) hhi
                          ('\\' :: 'u' :: (hex4 (56320 + (c.toNat - 65536) % 1024) ++
                            ((t.map escapeChar).flatten ++ '"' :: rest)))
                        have hx2 := parseHex4_hex4 (56320 + (c.toNat - 65536) % 1024) hlo
                          ((t.map escapeChar).flatten ++ '"' :: rest)
                        simp only [List.map_cons, List.flatten_cons, he, List.append_assoc,
                          List.cons_append, List.nil_append, parseStrBody, Char.reduceEq,
                          reduceIte, hx1, hx2]
                        rw [if_pos (by omega : 55296 ≤ 55296 + (c.toNat - 65536) / 1024 ∧
                              55296 + (c.toNat - 65536) / 1024 ≤ 56319),
                            if_pos (by omega : 56320 ≤ 56320 + (c.toNat - 65536) % 1024 ∧
                              56320 + (c.toNat - 65536) % 1024 ≤ 57343), htail]
                        have hcc : Char.ofNat (65536 +
                            (55296 + (c.toNat - 65536) / 1024 - 55296) * 1024 +
                            (56320 + (c.toNat - 65536) % 1024 - 56320)) = c := by
                          have harith : 65536 + (55296 + (c.toNat - 65536) / 1024 - 55296) * 1024
                              + (56320 + (c.toNat - 65536) % 1024 - 56320) = c.toNat := by
                            omega
                          rw [harith]
                          exact ofNat_toNat_self c
                        rw [hcc]
                        rfl

/-! ## JSON round trip: values and objects -/

theorem skipWs_cons_false (c : Char) (r : List Char) (h : isWsChar c = false) :
    skipWs (c :: r) = c :: r := by
  unfold skipWs
  rw [List.dropWhile_cons, if_neg (by simp [h])]

theorem skipWs_space (r : List Char) : skipWs (' ' :: r) = skipWs r := by
  unfold skipWs
  rw [List.dropWhile_cons, if_pos (by decide)]

theorem digit_not_ws (c : Char) (h : isDigitCh c = true) : isWsChar c = false := by
  simp only [isDigitCh, Bool.and_eq_true, decide_eq_true_eq] at h
  simp only [isWsChar, Bool.or_eq_false_iff, beq_eq_false_iff_ne, ne_eq]
  refine ⟨⟨⟨?_, ?_⟩, ?_⟩, ?_⟩ <;> intro he <;> rw [he] at h <;> exact absurd h (by decide)

theorem digit_ne_delims (c : Char) (h : isDigitCh c = true) :
    c ≠ '"' ∧ c ≠ '{' ∧ c ≠ '-' := by
  simp only [isDigitCh, Bool.and_eq_true, decide_eq_true_eq] at h
  refine ⟨?_, ?_, ?_⟩ <;> intro he <;> rw [he] at h <;> exact absurd h (by decide)

theorem renderInt_head (i : Int) :
    ∃ c cs, renderInt i = c :: cs ∧ (c = '-' ∨ isDigitCh c = true) := by
  unfold renderInt
  by_cases hneg : i < 0
  · rw [if_pos hneg]
    exact ⟨'-', renderNat i.natAbs, rfl, Or.inl rfl⟩
  · rw [if_neg hneg]
    obtain ⟨c, cs, hrn, hdig⟩ := renderNat_head i.natAbs
    exact ⟨c, cs, hrn, Or.inr hdig⟩

theorem parsePrim_cons_not_ws (c : Char) (r : List Char) (h : isWsChar c = false) :
    parsePrim (c :: r) = if c = '"'
      then (parseStrBody (r.length + 1) r).map (fun p => (JPrim.pstr ⟨p.1⟩, p.2))
      else (parseIntTok (c :: r)).map (fun p => (JPrim.pint p.1, p.2)) := by
  unfold parsePrim
  rw [skipWs_cons_false _ _ h]

theorem parseValueTop_cons_not_ws (c : Char) (r : List Char) (h : isWsChar c = false) :
    parseValueTop (c :: r) = if c = '"'
      then (parseStrBody (r.length + 1) r).map (fun p => (JValue.jstr ⟨p.1⟩, p.2))
      else if c = '{' then
        (match skipWs r with
         | '}' :: r2 => some (JValue.jobj [], r2)
         | _ => (parseFields (r.length + 1) r).map (fun p => (JValue.jobj p.1, p.2)))
      else (parseIntTok (c :: r)).map (fun p => (JValue.jint p.1, p.2)) := by
  unfold parseValueTop
  rw [skipWs_cons_false _ _ h]

theorem parsePrim_round (v : JPrim) (rest : List Char) (h : noDigitHead rest = true) :
    parsePrim (renderPrim v ++ rest) = some (v, rest) := by
  cases v with
  | pstr s =>
    have hshape : renderPrim (.pstr s) ++ rest
        = '"' :: ((s.data.map escapeChar).flatten ++ ('"' :: rest)) := by
      simp [renderPrim, renderString, List.cons_append, List.append_assoc]
    rw [hshape]
    unfold parsePrim
    rw [skipWs_cons_false _ _ (by decide)]
    have hlenk : s.data.length
        < ((s.data.map escapeChar).flatten ++ ('"' :: rest)).length + 1 := by
      have := length_le_flatten_escape s.data
      simp only [List.length_append, List.length_cons]
      omega
    have hstr := parseStrBody_round s.data
      (((s.data.map escapeChar).flatten ++ ('"' :: rest)).length + 1) rest hlenk
    simp only [Char.reduceEq, reduceIte, hstr]
    rfl
  | pint i =>
    obtain ⟨c, cs, hri, hc⟩ := renderInt_head i
    have hnws : isWsChar c = false := by
      rcases hc with rfl | hd
      · decide
      · exact digit_not_ws _ hd
    have hq : c ≠ '"' := by
      rcases hc with rfl | hd
      · decide
      · exact (digit_ne_delims _ hd).1
    show parsePrim (renderInt i ++ rest) = _
    rw [hri]
    show parsePrim (c :: (cs ++ rest)) = _
    rw [parsePrim_cons_not_ws _ _ hnws, if_neg hq]
    have hassoc : c :: (cs ++ rest) = (c :: cs) ++ rest := rfl
    rw [hassoc, ← hri, parseIntTok_round i rest h]
    rfl

theorem parsePrim_space (cs : List Char) : parsePrim (' ' :: cs) = parsePrim cs := by
  unfold parsePrim
  rw [skipWs_space]

theorem parseFields_space (f : Nat) (cs : List Char) (hf : 0 < f) :
    parseFields f (' ' :: cs) = parseFields f cs := by
  cases f with
  | zero => omega
  | succ f2 =>
    show parseFields (f2 + 1) (' ' :: cs) = parseFields (f2 + 1) cs
    simp only [parseFields]
    rw [skipWs_space]

theorem parseFields_round (fs : List (String × JPrim)) : ∀ (fuel : Nat) (rest : List Char),
    fs ≠ [] → fs.length < fuel →
    parseFields fuel (renderFields fs ++ '}' :: rest) = some (fs, rest) := by
  induction fs with
  | nil =>
    intro fuel rest hne
    exact absurd rfl hne
  | cons kv t ih =>
    intro fuel rest hne hlen
    obtain ⟨k, v⟩ := kv
    cases fuel with
    | zero => simp at hlen
    | succ f =>
      cases t with
      | nil =>
        have hshape : renderFields [(k, v)] ++ '}' :: rest
            = '"' :: ((k.data.map escapeChar).flatten
                ++ ('"' :: (':' :: ' ' :: (renderPrim v ++ '}' :: rest)))) := by
          simp [renderFields, renderString, List.cons_append, List.append_assoc]
        rw [hshape]
        have hlenk : k.data.length
            < ((k.data.map escapeChar).flatten
                ++ ('"' :: (':' :: ' ' :: (renderPrim v ++ '}' :: rest)))).length + 1 := by
          have := length_le_flatten_escape k.data
          simp only [List.length_append, List.length_cons]
          omega
        have hstr := parseStrBody_round k.data
          (((k.data.map escapeChar).flatten
            ++ ('"' :: (':' :: ' ' :: (renderPrim v ++ '}' :: rest)))).length + 1)
          (':' :: ' ' :: (renderPrim v ++ '}' :: rest)) hlenk
        have hprim : parsePrim (' ' :: (renderPrim v ++ '}' :: rest))
            = some (v, '}' :: rest) := by
          rw [parsePrim_space, parsePrim_round v ('}' :: rest) rfl]
        simp only [parseFields, skipWs_cons_false _ _ (by decide : isWsChar '"' = false),
          hstr, skipWs_cons_false _ _ (by decide : isWsChar ':' = false), hprim,
          skipWs_cons_false _ _ (by decide : isWsChar '}' = false)]
      | cons kv2 t2 =>
        have hshape : renderFields ((k, v) :: kv2 :: t2) ++ '}' :: rest
            = '"' :: ((k.data.map escapeChar).flatten
                ++ ('"' :: (':' :: ' ' :: (renderPrim v
                  ++ (',' :: ' ' :: (renderFields (kv2 :: t2) ++ '}' :: rest)))))) := by
          simp [renderFields, renderString, List.cons_append, List.append_assoc]
        rw [hshape]
        have hlenk : k.data.length
            < ((k.data.map escapeChar).flatten
                ++ ('"' :: (':' :: ' ' :: (renderPrim v
                  ++ (',' :: ' ' :: (renderFields (kv2 :: t2) ++ '}' :: rest)))))).length
              + 1 := by
          have := length_le_flatten_escape k.data
          simp only [List.length_append, List.length_cons]
          omega
        have hstr := parseStrBody_round k.data
          (((k.data.map escapeChar).flatten
            ++ ('"' :: (':' :: ' ' :: (renderPrim v
              ++ (',' :: ' ' :: (renderFields (kv2 :: t2) ++ '}' :: rest)))))).length + 1)
          (':' :: ' ' :: (renderPrim v
            ++ (',' :: ' ' :: (renderFields (kv2 :: t2) ++ '}' :: rest)))) hlenk
        have hprim : parsePrim (' ' :: (renderPrim v
            ++ (',' :: ' ' :: (renderFields (kv2 :: t2) ++ '}' :: rest))))
            = some (v, ',' :: ' ' :: (renderFields (kv2 :: t2) ++ '}' :: rest)) := by
          rw [parsePrim_space,
            parsePrim_round v (',' :: ' ' :: (renderFields (kv2 :: t2) ++ '}' :: rest)) rfl]
        have hfpos : 0 < f := by
          simp only [List.length_cons] at hlen
          omega
        have hrec : parseFields f (' ' :: (renderFields (kv2 :: t2) ++ '}' :: rest))
            = some (kv2 :: t2, rest) := by
          rw [parseFields_space f _ hfpos]
          exact ih f rest (by simp) (by simp only [List.length_cons] at hlen ⊢; omega)
        simp only [parseFields, skipWs_cons_false _ _ (by decide : isWsChar '"' = false),
          hstr, skipWs_cons_false _ _ (by decide : isWsChar ':' = false), hprim,
          skipWs_cons_false _ _ (by decide : isWsChar ',' = false), hrec]
        rfl

theorem renderFields_quote_head (fs : List (String × JPrim)) (h : fs ≠ []) :
    ∃ tl, renderFields fs = '"' :: tl := by
  cases fs with
  | nil => exact absurd rfl h
  | cons kv t =>
    obtain ⟨k, v⟩ := kv
    cases t with
    | nil => exact ⟨_, rfl⟩
    | cons kv2 t2 => exact ⟨_, rfl⟩

theorem renderFields_length_ge (fs : List (String × JPrim)) :
    fs.length ≤ (renderFields fs).length := by
  induction fs with
  | nil => simp [renderFields]
  | cons kv t ih =>
    obtain ⟨k, v⟩ := kv
    cases t with
    | nil =>
      simp only [renderFields, renderString, List.length_cons, List.length_append,
        List.length_nil]
      omega
    | cons kv2 t2 =>
      simp only [renderFields, renderString, List.length_cons, List.length_append,
        List.length_nil] at ih ⊢
      omega

theorem parseValueTop_round (v : JValue) : parseValueTop (renderValue v) = some (v, []) := by
  cases v with
  | jstr s =>
    have hshape : renderValue (.jstr s)
        = '"' :: ((s.data.map escapeChar).flatten ++ ('"' :: [])) := by
      simp [renderValue, renderString, List.cons_append, List.append_assoc]
    rw [hshape]
    unfold parseValueTop
    rw [skipWs_cons_false _ _ (by decide)]
    have hlenk : s.data.length
        < ((s.data.map escapeChar).flatten ++ ('"' :: [])).length + 1 := by
      have := length_le_flatten_escape s.data
      simp only [List.length_append, List.length_cons, List.length_nil]
      omega
    have hstr := parseStrBody_round s.data
      (((s.data.map escapeChar).flatten ++ ('"' :: [])).length + 1) [] hlenk
    simp only [Char.reduceEq, reduceIte, hstr]
    rfl
  | jint i =>
    obtain ⟨c, cs, hri, hc⟩ := renderInt_head i
    have hnws : isWsChar c = false := by
      rcases hc with rfl | hd
      · decide
      · exact digit_not_ws _ hd
    have hq : c ≠ '"' := by
      rcases hc with rfl | hd
      · decide
      · exact (digit_ne_delims _ hd).1
    have hbrace : c ≠ '{' := by
      rcases hc with rfl | hd
      · decide
      · exact (digit_ne_delims _ hd).2.1
    show parseValueTop (renderInt i) = _
    rw [hri]
    show parseValueTop (c :: cs) = _
    rw [parseValueTop_cons_not_ws _ _ hnws, if_neg hq, if_neg hbrace]
    have hint := parseIntTok_round i [] rfl
    rw [List.append_nil] at hint
    rw [show (c :: cs) = renderInt i from hri.symm, hint]
    rfl
  | jobj fs =>
    cases fs with
    | nil => decide
    | cons kv t =>
      obtain ⟨k, v⟩ := kv
      show parseValueTop ('{' :: (renderFields ((k, v) :: t) ++ ['}'])) = _
      rw [parseValueTop_cons_not_ws _ _ (by decide), if_neg (by decide), if_pos rfl]
      obtain ⟨tl, htl⟩ := renderFields_quote_head ((k, v) :: t) (by simp)
      have hflds := parseFields_round ((k, v) :: t)
        ((renderFields ((k, v) :: t) ++ ['}']).length + 1) [] (by simp)
        (by
          have := renderFields_length_ge ((k, v) :: t)
          simp only [List.length_append, List.length_cons, List.length_nil]
          simp only [List.length_cons] at this ⊢
          omega)
      simp only [htl, List.cons_append] at hflds ⊢
      rw [skipWs_cons_false _ _ (by decide)]
      simp only [Char.reduceEq, reduceIte, hflds]
      rfl

theorem loads_dumps (v : JValue) : loads (dumps v) = some v := by
  unfold loads dumps
  rw [show (⟨renderValue v⟩ : String).data = renderValue v from rfl, parseValueTop_round v]
  rfl

theorem dumps_jobj_ne_empty (data : List (String × JPrim)) : dumps (.jobj data) ≠ "" := by
  cases data with
  | nil => decide
  | cons kv t =>
    intro h
    have hd := congrArg String.data h
    simp [dumps, renderValue] at hd

/-- C8: round trip — for every session id and every record dict (a dict has
unique keys), performing a fetch after a save, before expiry and with no
intervening write or delete to that key, returns the record unchanged: the
same fields with the same values that were saved, through JSON
serialization and deserialization. -/
theorem save_then_fetch_roundtrip (st : Store) (now now2 : Nat) (sid : String)
    (data : List (String × JPrim))
    (hkeys : (data.map Prod.fst).Nodup)
    (hfresh : now2 < now + 60) :
    (SessionService.fetch_session
        (applyCmds st now (SessionService.save_session sid data)) now2 true sid).1
      = Except.ok (JValue.jobj data) := by
  have hlook : storeLookup (applyCmds st now (SessionService.save_session sid data)) sid
      = some ⟨dumps (.jobj data), now + 60⟩ := by
    simp [SessionService.save_session, SessionService.set_session, applyCmds, applyCmd,
      storeLookup]
  have hget : storeGet (applyCmds st now (SessionService.save_session sid data)) now2 sid
      = some (dumps (.jobj data)) := by
    unfold storeGet
    rw [hlook]
    exact if_pos hfresh
  show SessionService.get_sessionRes (applyCmds st now (SessionService.save_session sid data))
      now2 true sid = Except.ok (JValue.jobj data)
  simp [SessionService.get_sessionRes, hget, dumps_jobj_ne_empty, loads_dumps]

/-- C8 witness at one concrete record. -/
theorem save_then_fetch_roundtrip_witness :
    (SessionService.fetch_session
        (applyCmds [] 0 (SessionService.save_session "s1"
          [("fingerprint", .pstr "abc"), ("user_id", .pint 7)])) 30 true "s1").1
      = Except.ok (JValue.jobj [("fingerprint", .pstr "abc"), ("user_id", .pint 7)]) :=
  save_then_fetch_roundtrip [] 0 30 "s1"
    [("fingerprint", .pstr "abc"), ("user_id", .pint 7)] (by decide) (by decide)

end AuthFlow
